import Mathlib

/-!
Shallow embedding of the meeting-cost timer in `src/src/App.js`.

The program keeps one shared Firestore document per meeting
(`{ participants, isRunning, accumulatedSeconds, startTime }`) and mutates it
through five handlers: `handleAddParticipant`, `handleRemoveParticipant`,
`handleReset`, `handleToggleTimer`, plus the derived-value computation
`calculateCosts` / `getParticipantCost`.

Modelling decisions, each traceable to a source line:
* JS numbers are idealised as exact rationals (`ℚ`); timestamp `.seconds`
  values and `Date.now()` readings are integers (`ℤ`).
* `serverTimestamp()` (App.js:165) is a sentinel resolved by the server at
  write time; we pass the instant it resolves to as the parameter `serverNow`.
* `Timestamp.now()` (App.js:133, App.js:162) reads the client machine's local
  clock; we pass its `.seconds` as the parameter `clientNow`, kept distinct
  from `serverNow` so that which clock each computation uses is visible.
* `Date.now()` (App.js:153) is the client clock in milliseconds; we pass it
  as the parameter `nowMs`.
* A handler's effect on the store is a `StoreWrite`: either a merge
  (`setDoc(..., { merge: true })`, updating only the named fields) or a full
  replacement (`setDoc` without merge).  Handlers that return early issue no
  write.  We model the connected state (`meetingDocRef` non-null); the
  `!meetingDocRef` disjunct of the guard at App.js:152 is therefore false.
* `JOB_ROLES[newRole].rate` with `newRole` absent from `JOB_ROLES` throws a
  `TypeError` in JS (App.js:153); `AddResult.crashed` models that thrown
  exception (no write reaches the store).
-/

/-- Helper for the model of JS `trim`: strip leading whitespace characters
from a character list. -/
def dropLeadingWhitespace : List Char → List Char
  | [] => []
  | c :: cs => if c.isWhitespace then dropLeadingWhitespace cs else c :: cs

/-- Model of JavaScript `String.prototype.trim` (used at App.js:152-153):
removes whitespace from both ends of the string. -/
def jsTrim (s : String) : String :=
  ⟨dropLeadingWhitespace (dropLeadingWhitespace s.data.reverse).reverse⟩

/-- One entry of the `JOB_ROLES` table (App.js:7-18) and of a participant
record built at App.js:153: `{ id: Date.now(), name, role, rate }`. -/
structure Participant where
  id : ℤ
  name : String
  role : String
  rate : ℚ
  deriving DecidableEq, Repr

/-- The `JOB_ROLES` role → hourly-rate table, App.js:7-18. -/
def JOB_ROLES : List (String × ℚ) :=
  [("Executive (C-Suite)", 250),
   ("Director / VP", 175),
   ("Senior Manager", 140),
   ("Project Manager", 110),
   ("Senior Software Engineer", 125),
   ("Software Engineer", 90),
   ("UX/UI Designer", 85),
   ("Quality Assurance Analyst", 75),
   ("Marketing Specialist", 70),
   ("Intern / Junior Staff", 35)]

/-- The shared session document: the fields written at App.js:118 and read
back by the snapshot listener at App.js:113-116.  `startTime` is the optional
server-anchored start instant (`null` ↦ `none`). -/
structure SessionRecord where
  participants : List Participant
  isRunning : Bool
  accumulatedSeconds : ℚ
  startTime : Option ℤ
  deriving DecidableEq, Repr

/-- The default record created on first access (App.js:118):
`{ participants: [], isRunning: false, accumulatedSeconds: 0, startTime: null }`. -/
def defaultRecord : SessionRecord := ⟨[], false, 0, none⟩

/-- The fields named by a merge-write (`setDoc(..., { merge: true })`).
A `none` field is absent from the update; `startTime` can be explicitly set
to `null`, hence its doubled option. -/
structure PatchRecord where
  participants : Option (List Participant)
  isRunning : Option Bool
  accumulatedSeconds : Option ℚ
  startTime : Option (Option ℤ)
  deriving DecidableEq, Repr

/-- A write issued to Firestore: `mergeW` is `setDoc` with `{ merge: true }`
(App.js:154, 157, 163, 165), `replaceW` is `setDoc` without merge
(App.js:118, 158). -/
inductive StoreWrite where
  | mergeW (p : PatchRecord)
  | replaceW (r : SessionRecord)
  deriving DecidableEq, Repr

/-- Firestore merge semantics: each field named by the patch overwrites the
corresponding field of the document; unnamed fields are untouched. -/
def applyMerge (s : SessionRecord) (p : PatchRecord) : SessionRecord :=
  ⟨p.participants.getD s.participants,
   p.isRunning.getD s.isRunning,
   p.accumulatedSeconds.getD s.accumulatedSeconds,
   p.startTime.getD s.startTime⟩

/-- Effect of a write on the stored document. -/
def applyWrite (s : SessionRecord) : StoreWrite → SessionRecord
  | .mergeW p => applyMerge s p
  | .replaceW r => r

/-- Outcome of `handleAddParticipant` (App.js:150-156): the guard at
App.js:152 can return early (`rejected`), the role lookup at App.js:153 can
throw (`crashed`), otherwise a merge-write is issued (App.js:154). -/
inductive AddResult where
  | rejected
  | crashed
  | wrote (w : StoreWrite)
  deriving DecidableEq, Repr

/-- Handler `handleAddParticipant` (App.js:150-156).  Guard: `!newName.trim()
|| !newRole || !meetingDocRef` (the last disjunct is false in the connected
state we model).  On success appends
`{ id: Date.now(), name: newName.trim(), role: newRole,
   rate: JOB_ROLES[newRole].rate }` to the current list via a merge-write. -/
def handleAddParticipant (nowMs : ℤ) (newName newRole : String)
    (s : SessionRecord) : AddResult :=
  if jsTrim newName = "" || newRole = "" then .rejected
  else
    match List.lookup newRole JOB_ROLES with
    | none => .crashed
    | some rate =>
        .wrote (.mergeW
          ⟨some (s.participants ++ [⟨nowMs, jsTrim newName, newRole, rate⟩]),
           none, none, none⟩)

/-- Handler `handleRemoveParticipant` (App.js:157): merge-write replacing the
participant list with `participants.filter(p => p.id !== id)`. -/
def handleRemoveParticipant (id : ℤ) (s : SessionRecord) : StoreWrite :=
  .mergeW ⟨some (s.participants.filter (fun p => p.id != id)), none, none, none⟩

/-- Handler `handleReset` (App.js:158): a full (non-merge) `setDoc` of
`{ participants: [], isRunning: false, accumulatedSeconds: 0, startTime: null }`. -/
def handleReset : StoreWrite := .replaceW ⟨[], false, 0, none⟩

/-- Handler `handleToggleTimer` (App.js:159-167).  Returns early with no write when
`participants.length === 0`.  When running, computes
`elapsedSinceStart = startTime ? Timestamp.now().seconds - startTime.seconds : 0`
(a client-clock reading) and merge-writes the stop fields (App.js:162-163);
when stopped, merge-writes `{ isRunning: true, startTime: serverTimestamp() }`
(App.js:165), the sentinel resolving to `serverNow`. -/
def handleToggleTimer (clientNow serverNow : ℤ) (s : SessionRecord) :
    Option StoreWrite :=
  if s.participants.length = 0 then none
  else if s.isRunning then
    let elapsedSinceStart : ℤ :=
      match s.startTime with
      | some st => clientNow - st
      | none => 0
    some (.mergeW ⟨none, some false,
      some (s.accumulatedSeconds + (elapsedSinceStart : ℚ)), some none⟩)
  else
    some (.mergeW ⟨none, some true, none, some (some serverNow)⟩)

/-- Function `calculateCosts` (App.js:130-138) as a pure function of the record and the
client-clock reading `Timestamp.now().seconds` (App.js:133).  Returns
`(elapsedSeconds, totalCost)`: `currentElapsed` adds `now - startTime.seconds`
only when `isRunning && startTime`, and
`totalCost = participants.reduce((acc, p) => acc + p.rate / 3600, 0) * currentElapsed`. -/
def calculateCosts (clientNow : ℤ) (s : SessionRecord) : ℚ × ℚ :=
  let currentElapsed : ℚ :=
    match s.isRunning, s.startTime with
    | true, some st => s.accumulatedSeconds + ((clientNow - st : ℤ) : ℚ)
    | _, _ => s.accumulatedSeconds
  let totalRatePerSecond : ℚ :=
    s.participants.foldl (fun acc p => acc + p.rate / 3600) 0
  (currentElapsed, totalRatePerSecond * currentElapsed)

/-- Function `getParticipantCost` (App.js:168): `(rate / 3600) * elapsedSeconds`. -/
def getParticipantCost (elapsedSeconds rate : ℚ) : ℚ :=
  rate / 3600 * elapsedSeconds

/-- State transition induced by `handleAddParticipant`: the issued write, if
any, applied to the document (a throw or early return leaves it unchanged). -/
def stepAdd (nowMs : ℤ) (newName newRole : String) (s : SessionRecord) :
    SessionRecord :=
  match handleAddParticipant nowMs newName newRole s with
  | .wrote w => applyWrite s w
  | _ => s

/-- State transition induced by `handleRemoveParticipant`. -/
def stepRemove (id : ℤ) (s : SessionRecord) : SessionRecord :=
  applyWrite s (handleRemoveParticipant id s)

/-- State transition induced by `handleReset`. -/
def stepReset (_s : SessionRecord) : SessionRecord := applyWrite _s handleReset

/-- State transition induced by `handleToggleTimer` (no write ↦ unchanged). -/
def stepToggle (clientNow serverNow : ℤ) (s : SessionRecord) : SessionRecord :=
  match handleToggleTimer clientNow serverNow s with
  | none => s
  | some w => applyWrite s w

/-- Records reachable from the default document through the user-issued
mutations (add, remove, start/stop toggle, reset), each applied sequentially
to the store. -/
inductive Reachable : SessionRecord → Prop where
  | init : Reachable defaultRecord
  | add (nowMs : ℤ) (name role : String) {s : SessionRecord} :
      Reachable s → Reachable (stepAdd nowMs name role s)
  | remove (id : ℤ) {s : SessionRecord} :
      Reachable s → Reachable (stepRemove id s)
  | toggle (clientNow serverNow : ℤ) {s : SessionRecord} :
      Reachable s → Reachable (stepToggle clientNow serverNow s)
  | reset {s : SessionRecord} : Reachable s → Reachable (stepReset s)

/-- Sample participant: rate copied from `JOB_ROLES["Software Engineer"]`. -/
def pEng : Participant := ⟨1, "Ada", "Software Engineer", 90⟩

/-- Sample running record: one participant, zero accumulated, anchor at
instant 0. -/
def sRun : SessionRecord := ⟨[pEng], true, 0, some 0⟩

/-- C1 counterexample: in the running state with an empty participant list
(reachable by Start followed by removing every participant), the toggle
handler returns at the App.js:160 guard, so no write is issued and the state
is unchanged — contrary to the claim, which promises a Stop write with
`accumulatedSeconds = 5 + (10 - 3) = 12`, `isRunning = false` and a cleared
anchor for every state with `isRunning` true. -/
theorem C1_counterexample :
    handleToggleTimer 10 10 ⟨[], true, 5, some 3⟩ = none ∧
    stepToggle 10 10 ⟨[], true, 5, some 3⟩ = ⟨[], true, 5, some 3⟩ ∧
    (stepToggle 10 10 ⟨[], true, 5, some 3⟩).isRunning = true := by
  refine ⟨rfl, rfl, rfl⟩

/-- C1 (amended): from a running state with a non-empty participant list and
an anchor present, the toggle handler merge-writes
`accumulatedSeconds_old + (now - startAnchor)` (with `now` the clock reading
made at App.js:162), `isRunning = false`, and `startTime = null`; the merged
record keeps the participants and has the claimed fields. -/
theorem C1_stop_folds_segment (clientNow serverNow a : ℤ) (s : SessionRecord)
    (hp : s.participants ≠ []) (hr : s.isRunning = true)
    (ha : s.startTime = some a) :
    handleToggleTimer clientNow serverNow s =
      some (.mergeW ⟨none, some false,
        some (s.accumulatedSeconds + ((clientNow - a : ℤ) : ℚ)), some none⟩) ∧
    stepToggle clientNow serverNow s =
      ⟨s.participants, false, s.accumulatedSeconds + ((clientNow - a : ℤ) : ℚ),
        none⟩ := by
  have hlen : ¬ s.participants.length = 0 := by
    simpa [List.length_eq_zero] using hp
  constructor
  · simp [handleToggleTimer, hlen, hr, ha]
  · simp [stepToggle, handleToggleTimer, hlen, hr, ha, applyWrite, applyMerge]

/-- C1 witness: stopping `⟨[pEng], true, 5, some 3⟩` at client instant 10
folds in the segment `10 - 3 = 7`, giving accumulated `12`. -/
theorem C1_stop_folds_segment_witness :
    handleToggleTimer 10 0 ⟨[pEng], true, 5, some 3⟩ =
      some (.mergeW ⟨none, some false, some 12, some none⟩) ∧
    stepToggle 10 0 ⟨[pEng], true, 5, some 3⟩ = ⟨[pEng], false, 12, none⟩ := by
  have h := C1_stop_folds_segment 10 0 3 ⟨[pEng], true, 5, some 3⟩
    (List.cons_ne_nil _ _) rfl rfl
  norm_num at h
  exact h

/-- C4: when the participant list is empty and the timer is stopped, the
toggle handler (Start) returns at the App.js:160 guard: it issues no store
write and the state is unchanged. -/
theorem C4_start_rejected_when_empty (clientNow serverNow : ℤ)
    (s : SessionRecord) (hp : s.participants = [])
    (_hr : s.isRunning = false) :
    handleToggleTimer clientNow serverNow s = none ∧
    stepToggle clientNow serverNow s = s := by
  refine ⟨by simp [handleToggleTimer, hp], by simp [stepToggle, handleToggleTimer, hp]⟩

/-- C4 witness: Start on the default (empty) record issues no write. -/
theorem C4_start_rejected_when_empty_witness :
    handleToggleTimer 3 7 defaultRecord = none ∧
    stepToggle 3 7 defaultRecord = defaultRecord :=
  C4_start_rejected_when_empty 3 7 defaultRecord rfl rfl

/-- C10: Stop invoked (guard passed: participants non-empty) in a state with
`isRunning = true` but no anchor takes the `: 0` branch of App.js:162, so the
merge-write keeps the old `accumulatedSeconds`, sets `isRunning = false` and
leaves `startTime` null; no failure occurs. -/
theorem C10_stop_without_anchor (clientNow serverNow : ℤ) (s : SessionRecord)
    (hp : s.participants ≠ []) (hr : s.isRunning = true)
    (ha : s.startTime = none) :
    handleToggleTimer clientNow serverNow s =
      some (.mergeW ⟨none, some false, some s.accumulatedSeconds, some none⟩) ∧
    stepToggle clientNow serverNow s =
      ⟨s.participants, false, s.accumulatedSeconds, none⟩ := by
  have hlen : ¬ s.participants.length = 0 := by
    simpa [List.length_eq_zero] using hp
  constructor
  · simp [handleToggleTimer, hlen, hr, ha]
  · simp [stepToggle, handleToggleTimer, hlen, hr, ha, applyWrite, applyMerge]

/-- C10 witness: a running record with no anchor and accumulated 7 stops to
accumulated 7. -/
theorem C10_stop_without_anchor_witness :
    handleToggleTimer 10 0 ⟨[pEng], true, 7, none⟩ =
      some (.mergeW ⟨none, some false, some 7, some none⟩) ∧
    stepToggle 10 0 ⟨[pEng], true, 7, none⟩ = ⟨[pEng], false, 7, none⟩ :=
  C10_stop_without_anchor 10 0 ⟨[pEng], true, 7, none⟩
    (List.cons_ne_nil _ _) rfl rfl

/-- Shape of a successful `handleAddParticipant` write: the guard passed, the
role lookup succeeded, and the issued merge names only `participants`, the old
list with the new record appended (App.js:153-154). -/
theorem handleAddParticipant_wrote (nowMs : ℤ) (newName newRole : String)
    (s : SessionRecord) (w : StoreWrite)
    (h : handleAddParticipant nowMs newName newRole s = .wrote w) :
    ∃ rate, List.lookup newRole JOB_ROLES = some rate ∧
      w = .mergeW
        ⟨some (s.participants ++ [⟨nowMs, jsTrim newName, newRole, rate⟩]),
         none, none, none⟩ := by
  unfold handleAddParticipant at h
  split at h
  · simp at h
  · split at h
    · simp at h
    · rename_i rate hrate
      injection h with h
      exact ⟨rate, hrate, h.symm⟩

/-- Adding a participant never touches the timer fields: the write issued at
App.js:154 names only `participants`. -/
theorem stepAdd_timer_eq (nowMs : ℤ) (name role : String) (s : SessionRecord) :
    (stepAdd nowMs name role s).isRunning = s.isRunning ∧
    (stepAdd nowMs name role s).startTime = s.startTime := by
  cases h : handleAddParticipant nowMs name role s with
  | rejected => simp [stepAdd, h]
  | crashed => simp [stepAdd, h]
  | wrote w =>
      obtain ⟨rate, -, rfl⟩ := handleAddParticipant_wrote nowMs name role s w h
      simp [stepAdd, h, applyWrite, applyMerge]

/-- C2: in every record reachable from the default document through the
user-issued mutations, the anchor is present exactly when the timer is
running. -/
theorem C2_anchor_iff_running (s : SessionRecord) (h : Reachable s) :
    s.startTime.isSome = s.isRunning := by
  induction h with
  | init => rfl
  | add nowMs name role _ ih =>
      rename_i s' _
      have he := stepAdd_timer_eq nowMs name role s'
      rw [he.1, he.2]; exact ih
  | remove id _ ih => exact ih
  | toggle clientNow serverNow _ ih =>
      rename_i s' _
      by_cases hlen : s'.participants.length = 0
      · simpa [stepToggle, handleToggleTimer, hlen] using ih
      · cases hr : s'.isRunning with
        | false =>
            simp [stepToggle, handleToggleTimer, hlen, hr, applyWrite,
              applyMerge]
        | true =>
            simp [stepToggle, handleToggleTimer, hlen, hr, applyWrite,
              applyMerge]
  | reset _ _ => rfl

/-- C2 witness: the invariant holds for the concrete reachable record
obtained by adding a participant and then starting the timer. -/
theorem C2_anchor_iff_running_witness :
    (stepToggle 0 5 (stepAdd 1 "Ada" "Software Engineer" defaultRecord)).startTime.isSome =
      (stepToggle 0 5 (stepAdd 1 "Ada" "Software Engineer" defaultRecord)).isRunning :=
  C2_anchor_iff_running _
    (Reachable.toggle 0 5 (Reachable.add 1 "Ada" "Software Engineer" Reachable.init))

/-- C6: `handleReset` issues a full replacement (not a merge) carrying the
canonical empty record, and from any prior state the resulting document is
exactly that canonical empty record. -/
theorem C6_reset_canonical (s : SessionRecord) :
    handleReset = StoreWrite.replaceW defaultRecord ∧
    stepReset s = defaultRecord :=
  ⟨rfl, rfl⟩

/-- C9: removing an id that occurs nowhere in the participant list
merge-writes the unchanged list back, and the resulting document equals the
original; the handler has no failure path. -/
theorem C9_remove_absent_id (id : ℤ) (s : SessionRecord)
    (h : ∀ p ∈ s.participants, p.id ≠ id) :
    handleRemoveParticipant id s =
      .mergeW ⟨some s.participants, none, none, none⟩ ∧
    stepRemove id s = s := by
  have hf : s.participants.filter (fun p => p.id != id) = s.participants := by
    rw [List.filter_eq_self]
    intro p hp
    simpa using h p hp
  constructor
  · simp [handleRemoveParticipant, hf]
  · simp [stepRemove, handleRemoveParticipant, applyWrite, applyMerge, hf]

/-- C9 witness: removing the absent id 2 from a one-participant list (id 1)
leaves the record unchanged. -/
theorem C9_remove_absent_id_witness :
    handleRemoveParticipant 2 ⟨[pEng], false, 0, none⟩ =
      .mergeW ⟨some [pEng], none, none, none⟩ ∧
    stepRemove 2 ⟨[pEng], false, 0, none⟩ = ⟨[pEng], false, 0, none⟩ :=
  C9_remove_absent_id 2 ⟨[pEng], false, 0, none⟩ (by decide)

/-- C3 counterexample: pin the server instant at 0 and the anchor at 0; two
different client-clock readings (10 and 20, the `Timestamp.now()` values at
App.js:162 and App.js:133) yield Stop writes folding 10 resp. 20 seconds and
two different derived elapsed values.  If only store-assigned instants
entered duration arithmetic, both pairs would coincide, since the server
instant and the anchor are identical across the four facts. -/
theorem C3_counterexample :
    handleToggleTimer 10 0 sRun =
      some (.mergeW ⟨none, some false, some 10, some none⟩) ∧
    handleToggleTimer 20 0 sRun =
      some (.mergeW ⟨none, some false, some 20, some none⟩) ∧
    (calculateCosts 10 sRun).1 = 10 ∧
    (calculateCosts 20 sRun).1 = 20 := by
  refine ⟨?_, ?_, ?_, ?_⟩ <;> norm_num [handleToggleTimer, calculateCosts, sRun, pEng]

/-- C3 (amended): Start anchors at the store-assigned instant (the
`serverTimestamp()` sentinel of App.js:165 resolving to `serverNow`), but the
`now` subtracted from the anchor by Stop (App.js:162) and the `now` used to
derive `elapsedSeconds` on each tick (App.js:133) are client-clock readings
(`Timestamp.now()`), not store-assigned instants. -/
theorem C3_anchor_server_now_client (clientNow serverNow a : ℤ)
    (s : SessionRecord) (hp : s.participants ≠ []) :
    (s.isRunning = false →
      handleToggleTimer clientNow serverNow s =
        some (.mergeW ⟨none, some true, none, some (some serverNow)⟩)) ∧
    (s.isRunning = true → s.startTime = some a →
      handleToggleTimer clientNow serverNow s =
        some (.mergeW ⟨none, some false,
          some (s.accumulatedSeconds + ((clientNow - a : ℤ) : ℚ)),
          some none⟩)) ∧
    (s.isRunning = true → s.startTime = some a →
      (calculateCosts clientNow s).1 =
        s.accumulatedSeconds + ((clientNow - a : ℤ) : ℚ)) := by
  have hlen : ¬ s.participants.length = 0 := by
    simpa [List.length_eq_zero] using hp
  refine ⟨fun hr => ?_, fun hr ha => ?_, fun hr ha => ?_⟩
  · simp [handleToggleTimer, hlen, hr]
  · simp [handleToggleTimer, hlen, hr, ha]
  · simp [calculateCosts, hr, ha]

/-- C3 amended witness: Start at server instant 42 anchors 42 regardless of
the client reading 7; Stop of `sRun` at client reading 10 folds 10 even
though the server instant is 42. -/
theorem C3_anchor_server_now_client_witness :
    handleToggleTimer 7 42 ⟨[pEng], false, 0, none⟩ =
      some (.mergeW ⟨none, some true, none, some (some 42)⟩) ∧
    handleToggleTimer 10 42 sRun =
      some (.mergeW ⟨none, some false, some 10, some none⟩) := by
  refine ⟨(C3_anchor_server_now_client 7 42 0 ⟨[pEng], false, 0, none⟩
      (List.cons_ne_nil _ _)).1 rfl, ?_⟩
  have h := (C3_anchor_server_now_client 10 42 0 sRun
      (List.cons_ne_nil _ _)).2.1 rfl rfl
  rw [h]; norm_num [sRun]

/-- Folding the per-second rates (the `reduce` at App.js:136) equals the
initial accumulator plus the sum of the mapped rates. -/
theorem foldl_rate_eq_sum (l : List Participant) :
    ∀ init : ℚ, l.foldl (fun acc p => acc + p.rate / 3600) init =
      init + (l.map (fun p => p.rate / 3600)).sum := by
  induction l with
  | nil => intro init; simp
  | cons p t ih => intro init; simp [ih, add_assoc]

/-- Total cost is the summed per-second rate times the derived elapsed
seconds (App.js:136-137). -/
theorem calculateCosts_totalCost (clientNow : ℤ) (s : SessionRecord) :
    (calculateCosts clientNow s).2 =
      (s.participants.map (fun p => p.rate / 3600)).sum *
        (calculateCosts clientNow s).1 := by
  unfold calculateCosts
  simp [foldl_rate_eq_sum]

/-- C5: under the anchor-iff-running invariant, the derived elapsed seconds
equal `accumulatedSeconds + (isRunning ? now - startAnchor : 0)` and the
derived total cost is the sum over participants of
`getParticipantCost elapsed rate = (rate / 3600) * elapsed`. -/
theorem C5_derived_values (clientNow : ℤ) (s : SessionRecord)
    (hinv : s.isRunning = true → s.startTime.isSome = true) :
    (calculateCosts clientNow s).1 =
      s.accumulatedSeconds +
        (if s.isRunning then ((clientNow - s.startTime.getD 0 : ℤ) : ℚ)
         else 0) ∧
    (calculateCosts clientNow s).2 =
      (s.participants.map
        (fun p => getParticipantCost (calculateCosts clientNow s).1 p.rate)).sum := by
  constructor
  · cases hr : s.isRunning with
    | false => simp [calculateCosts, hr]
    | true =>
        cases hst : s.startTime with
        | none =>
            have := hinv hr
            rw [hst] at this
            simp at this
        | some a => simp [calculateCosts, hr, hst]
  · rw [calculateCosts_totalCost, ← List.sum_map_mul_right]
    rfl

/-- C5 witness: one participant at rate 90, running from anchor 0, client now
10: elapsed 10, total cost 1/4 (= 0.25), and the per-participant cost for the
rate-90 participant is also 1/4. -/
theorem C5_derived_values_witness :
    (calculateCosts 10 sRun).1 = 10 ∧ (calculateCosts 10 sRun).2 = 1/4 ∧
    getParticipantCost (calculateCosts 10 sRun).1 pEng.rate = 1/4 := by
  have h := C5_derived_values 10 sRun (fun _ => rfl)
  refine ⟨by rw [h.1]; norm_num [sRun], ?_, ?_⟩
  · norm_num [calculateCosts, sRun, pEng]
  · norm_num [getParticipantCost, calculateCosts, sRun, pEng]

/-- C7 counterexample: a non-empty name with a role that is not a key of
`JOB_ROLES` passes the guard at App.js:152 (which only checks `!newRole`,
i.e. role non-empty), and `JOB_ROLES[newRole].rate` at App.js:153 then
throws — the input is not resolved by local validation as the claim states
(and no `ValidationError` result exists anywhere in the handler). -/
theorem C7_counterexample :
    handleAddParticipant 0 "Alice" "Chief Vibes Officer" defaultRecord =
      AddResult.crashed := by decide

/-- C7 (amended): inputs whose trimmed name is empty or whose role is the
empty string are rejected locally (early return, no store write); a
non-empty role absent from `JOB_ROLES` is not validated — the rate lookup
throws instead — though no store write occurs in that case either. -/
theorem C7_validation (nowMs : ℤ) (newName newRole : String)
    (s : SessionRecord) :
    (jsTrim newName = "" ∨ newRole = "" →
      handleAddParticipant nowMs newName newRole s = .rejected) ∧
    (jsTrim newName ≠ "" → newRole ≠ "" →
      List.lookup newRole JOB_ROLES = none →
      handleAddParticipant nowMs newName newRole s = .crashed) := by
  constructor
  · intro h
    unfold handleAddParticipant
    rcases h with h | h <;> simp [h]
  · intro h1 h2 h3
    unfold handleAddParticipant
    simp [h1, h2, h3]

/-- C7 witness: an all-whitespace name is rejected; a non-empty unknown role
reaches the throwing lookup. -/
theorem C7_validation_witness :
    handleAddParticipant 0 "   " "Software Engineer" defaultRecord =
      AddResult.rejected ∧
    handleAddParticipant 0 "Bob" "Makeup Artist" defaultRecord =
      AddResult.crashed := by
  refine ⟨(C7_validation 0 "   " "Software Engineer" defaultRecord).1
      (Or.inl (by decide)),
    (C7_validation 0 "Bob" "Makeup Artist" defaultRecord).2
      (by decide) (by decide) (by decide)⟩

/-- C8 counterexample: two Adds that both read `Date.now() = 100`
(App.js:153) assign the same id, so the registry ends with two participants
both carrying id 100 — the ids are not pairwise unique. -/
theorem C8_counterexample :
    ((stepAdd 100 "Bob" "Software Engineer"
        (stepAdd 100 "Ada" "Software Engineer" defaultRecord)).participants.map
      Participant.id) = [100, 100] := by decide

/-- C8 (amended): the id assigned by a successful Add is the `Date.now()`
clock reading; ids stay pairwise unique provided each Add's clock reading
differs from every id already in the registry (two Adds observing the same
millisecond violate uniqueness, as the counterexample shows). -/
theorem C8_id_unique_if_clock_fresh (nowMs : ℤ) (newName newRole : String)
    (s : SessionRecord)
    (hfresh : ∀ p ∈ s.participants, p.id ≠ nowMs)
    (hnodup : (s.participants.map Participant.id).Nodup) :
    ((stepAdd nowMs newName newRole s).participants.map
      Participant.id).Nodup := by
  cases h : handleAddParticipant nowMs newName newRole s with
  | rejected => simpa [stepAdd, h] using hnodup
  | crashed => simpa [stepAdd, h] using hnodup
  | wrote w =>
      obtain ⟨rate, -, rfl⟩ :=
        handleAddParticipant_wrote nowMs newName newRole s w h
      unfold stepAdd
      rw [h]
      show ((s.participants ++
        [(⟨nowMs, jsTrim newName, newRole, rate⟩ : Participant)]).map
          Participant.id).Nodup
      rw [List.map_append]
      refine List.Nodup.append hnodup (List.nodup_singleton _) ?_
      intro a ha hb
      simp only [List.map_cons, List.map_nil, List.mem_singleton] at hb
      subst hb
      obtain ⟨p, hp, hpid⟩ := List.mem_map.mp ha
      exact hfresh p hp hpid

/-- C8 witness: a second Add at the fresh clock reading 200 keeps the ids
pairwise unique. -/
theorem C8_id_unique_if_clock_fresh_witness :
    ((stepAdd 200 "Bob" "Software Engineer"
        (stepAdd 100 "Ada" "Software Engineer" defaultRecord)).participants.map
      Participant.id).Nodup :=
  C8_id_unique_if_clock_fresh 200 "Bob" "Software Engineer"
    (stepAdd 100 "Ada" "Software Engineer" defaultRecord)
    (by decide) (by decide)
